import Mathlib

/-!
Verification of the cptac dataset version/index resolution and file-acquisition
subsystem (`src/cptac/tools/download_tools/box_download.py`).

Python strings are modelled as `List Char` (`Str`), Python dicts as insertion
ordered association lists (`dictSet` / `dictGet`, matching Python 3.7+ dict
semantics), and fallible code returns `Except`.  File-system state (directory
listings, file contents) is passed explicitly.  Each definition is a direct
transcription of the corresponding Python function.
-/

/-- Python strings, modelled as lists of characters. -/
abbrev Str := List Char

/-- Shorthand to build a `Str` from a Lean string literal. -/
def str (s : String) : Str := s.toList

/-- The tab character, the field separator of index entry lines. -/
def tabChar : Char := '\t'

/-- The marker character opening a version section in an index file. -/
def hashStr : Str := ['#']

/-- Python whitespace characters, as stripped by `str.strip()`. -/
def isSpaceC (c : Char) : Bool :=
  c == ' ' || c == '\t' || c == '\n' || c == '\r' || c == '\x0b' || c == '\x0c'

/-- Python `str.strip()`: remove leading and trailing whitespace. -/
def pyStrip (s : Str) : Str :=
  ((s.dropWhile isSpaceC).reverse.dropWhile isSpaceC).reverse

/-- Python `str.startswith(p)`. -/
def strStartsWith : Str → Str → Bool
  | _, [] => true
  | [], _ :: _ => false
  | c :: s, p :: ps => c == p && strStartsWith s ps

/-- Python `str.split(sep)` for a one-character separator: splits at every
occurrence, `""` giving `[""]`. -/
def splitOnChar (sep : Char) : Str → List Str
  | [] => [[]]
  | c :: rest =>
    match splitOnChar sep rest with
    | [] => [[]]
    | s :: ss => if c == sep then [] :: s :: ss else (c :: s) :: ss

/-- Python `str.lower()` (ASCII case folding). -/
def strLower (s : Str) : Str := s.map Char.toLower

/-- Python `str.replace(pat, repl)` for a non-empty pattern: replace all
non-overlapping occurrences, scanning left to right.  (The source only calls
`replace` with the non-empty pattern `dataset_name + '_v'`.) -/
def replaceAll (s pat repl : Str) : Str :=
  if h : pat.isEmpty then s
  else
    match s with
    | [] => []
    | c :: rest =>
      if strStartsWith (c :: rest) pat then
        repl ++ replaceAll ((c :: rest).drop pat.length) pat repl
      else
        c :: replaceAll rest pat repl
termination_by s.length
decreasing_by
  · simp only [List.length_drop, List.length_cons]
    have hp : 0 < pat.length := by
      cases pat
      · simp at h
      · simp
    omega
  · simp

/-- Python dict assignment `m[k] = v` for an insertion-ordered dict: replace in
place if the key is present, append otherwise. -/
def dictSet {α : Type} : List (Str × α) → Str → α → List (Str × α)
  | [], k, v => [(k, v)]
  | (k', v') :: rest, k, v =>
    if k' = k then (k, v) :: rest else (k', v') :: dictSet rest k v

/-- Python dict lookup `m.get(k)` / `m[k]` (the latter raising `KeyError` on
`none`). -/
def dictGet {α : Type} : List (Str × α) → Str → Option α
  | [], _ => none
  | (k', v') :: rest, k => if k' = k then some v' else dictGet rest k

/-- Keys of an association-list dict, in insertion order. -/
def dictKeys {α : Type} (m : List (Str × α)) : List Str := m.map Prod.fst

/-- Whether the keys of an association-list dict are pairwise distinct. -/
def nodupKeys {α : Type} : List (Str × α) → Bool
  | [] => true
  | p :: rest => !(rest.any (fun q => q.1 == p.1)) && nodupKeys rest

/-- A version-index file entry: `index[version][file_name]` holds the file url
and datatype (`get_index`, box_download.py lines 296-298). -/
structure FileEntry where
  url : Str
  datatype : Str
deriving DecidableEq

/-- One version section of the index: `{file_name -> {url, datatype}}`. -/
abbrev FileManifest := List (Str × FileEntry)

/-- The parsed version index: `{version -> {file_name -> {url, datatype}}}`. -/
abbrev Index := List (Str × FileManifest)

/-- Release segments of a version token, modelling
`packaging.version.parse` on dotted numeric tokens: `"1.10"` is `[1, 10]`. -/
def strToNat (s : Str) : Nat :=
  s.foldl (fun acc c => acc * 10 + (c.toNat - 48)) 0

/-- Release list of a version token (see `strToNat`). -/
def releaseOf (v : Str) : List Nat := (splitOnChar '.' v).map strToNat

/-- `packaging.version` ordering on release lists: lexicographic with implicit
zero padding, so that `1.0` and `1` compare equal. -/
def relLt : List Nat → List Nat → Bool
  | [], bs => bs.any (fun b => decide (0 < b))
  | a :: as, [] => (a == 0) && relLt as []
  | a :: as, b :: bs => decide (a < b) || ((a == b) && relLt as bs)

/-- Python `max(xs, key=packaging.version.parse)`: first element with maximal
key; `none` on an empty list (`ValueError` in Python). -/
def pyMax (key : Str → List Nat) : List Str → Option Str
  | [] => none
  | x :: xs =>
    some (xs.foldl (fun best y => if relLt (key best) (key y) then y else best) x)

/-- Errors of `get_index`: the two installation errors raised when the index
file is absent, plus the uncaught Python exceptions its parsing loop can
raise (`IndexError` from `line_list[2]` / `line_list[3]` on a 2- or 3-field
line, `KeyError` from `index[version]` when an entry precedes any marker). -/
inductive GErr
  | missingFile
  | datasetNotInstalled
  | indexError
  | keyError
deriving DecidableEq

/-- The line loop of `get_index` (box_download.py lines 283-298): a stripped
line starting with `#` opens version section `line[1:]`; otherwise the line is
split on tabs and, when it has more than one field, recorded under the current
version with name at position 0, url at position 2 and datatype at position 3
(positions 2 and 3 raising `IndexError` when absent). -/
def parseIndexLines : List Str → Index → Option Str → Except GErr Index
  | [], index, _ => .ok index
  | rawLine :: rest, index, version =>
    let line := pyStrip rawLine
    if strStartsWith line hashStr then
      let v := line.drop 1
      parseIndexLines rest (dictSet index v []) (some v)
    else
      let line_list := splitOnChar tabChar line
      if line_list.length > 1 then
        match version with
        | none => .error .keyError
        | some v =>
          match dictGet index v with
          | none => .error .keyError
          | some files =>
            match line_list[2]?, line_list[3]? with
            | some file_url, some file_datatype =>
              parseIndexLines rest
                (dictSet index v
                  (dictSet files (line_list.headD []) ⟨file_url, file_datatype⟩))
                (some v)
            | _, _ => .error .indexError
      else
        parseIndexLines rest index version

/-- `glob.glob(os.path.join(dataset_path, f"{dataset}_v*"))` restricted to the
entries of the dataset directory: an entry matches iff its name starts with
`{dataset}_v`, regardless of whether it is a file or a directory.  `entries`
pairs each name with its is-directory flag. -/
def globVersionDirs (dataset : Str) (entries : List (Str × Bool)) : List Str :=
  (entries.map Prod.fst).filter (fun n => strStartsWith n (dataset ++ str "_v"))

/-- `get_index` (box_download.py lines 257-299).  `entries` lists the dataset
directory's contents (name, is-directory); `index_content` is the line list of
`index.txt`, or `none` when the file is absent.  When the index file is absent
the error raised depends on whether any entry matches the glob pattern
`{dataset}_v*`; otherwise the lines are parsed by `parseIndexLines`. -/
def get_index (dataset : Str) (entries : List (Str × Bool))
    (index_content : Option (List Str)) : Except GErr Index :=
  match index_content with
  | none =>
    if (globVersionDirs dataset entries).length > 0 then
      .error .missingFile
    else
      .error .datasetNotInstalled
  | some index_lines => parseIndexLines index_lines [] none

/-- `get_latest_installed` (box_download.py lines 235-255).  `dirs_listing`
lists the names of the subdirectories of `dataset_path` (the source filters
`os.listdir` by `os.path.isdir`).  The dataset name is taken to be element 1
of the last path component split on underscores (the source comment: we get
`endometrial` from `data_endometrial`); element 1 missing would raise
`IndexError` in Python, which cannot happen for real `data/data_{dataset}`
paths. -/
def get_latest_installed (dataset_path : Str) (dirs_listing : List Str) :
    Option Str :=
  let dirs := dirs_listing.map pyStrip
  let dataset_dir := (splitOnChar '/' dataset_path).getLastD []
  match (splitOnChar '_' dataset_dir)[1]? with
  | none => none
  | some dataset_name =>
    let version_dir_pre := dataset_name ++ str "_v"
    let versions :=
      (dirs.filter (fun d => strStartsWith d version_dir_pre)).map
        (fun d => replaceAll d version_dir_pre [])
    if versions.isEmpty then none else pyMax releaseOf versions

/-- Warnings emitted by `validate_version`. -/
inductive VWarn
  | oldDataVersion
  | downloadingNewLatest
deriving DecidableEq

/-- Errors raised by `validate_version`.  `valueError` models `max()` on an
empty index; `nameError` models the `UnboundLocalError` hit when the ambiguous
branch is reached with a `use_context` that is neither `"download"` nor
`"init"` (`return_version` is then never assigned). -/
inductive VErr
  | valueError
  | ambiguousLatest
  | invalidParameter
  | packageCannotHandle
  | nameError
deriving DecidableEq

/-- `validate_version` (box_download.py lines 191-233).  The dataset index
(`get_index`) and the installed-version scan (`get_latest_installed`) are
passed in explicitly; the result pairs the resolved version with the warnings
emitted. -/
def validate_version (index : Index) (latest_installed : Option Str)
    (version : Str) (use_context : Str) (valid_versions : Option (List Str)) :
    Except VErr (Str × List VWarn) :=
  let index_keys := dictKeys index
  match pyMax releaseOf index_keys with
  | none => .error .valueError
  | some index_latest =>
    let step :=
      if index_keys.contains version then
        if version ≠ index_latest then
          Except.ok (version, [VWarn.oldDataVersion])
        else
          Except.ok (version, ([] : List VWarn))
      else if strLower version = str "latest" then
        if latest_installed = some index_latest ∨ latest_installed = none then
          Except.ok (index_latest, ([] : List VWarn))
        else if use_context = str "download" then
          Except.ok (index_latest, [VWarn.downloadingNewLatest])
        else if use_context = str "init" then
          Except.error VErr.ambiguousLatest
        else
          Except.error VErr.nameError
      else
        Except.error VErr.invalidParameter
    match step with
    | .error e => .error e
    | .ok (return_version, ws) =>
      match valid_versions with
      | some vv =>
        if ¬ vv.contains return_version then
          .error .packageCannotHandle
        else
          .ok (return_version, ws)
      | none => .ok (return_version, ws)

/-- The annotation umbrella types of `get_filtered_version_index`
(box_download.py line 316). -/
def annotation_types : List Str :=
  [str "clinical", str "derived_molecular", str "experimental_design",
   str "medical_history"]

/-- The helper file types always added by `get_filtered_version_index`
(box_download.py line 319). -/
def helper_types : List Str := [str "mapping", str "definitions"]

/-- Which wording the `DataTypeNotInSourceWarning` uses: the shared-source
branch (`source in ['harmonized', 'mssm']`) or the per-cancer branch (after
`source, cancer = source.split("_")`). -/
inductive FWarnKind
  | shared
  | perCancer
deriving DecidableEq

/-- A `DataTypeNotInSourceWarning`, carrying the unmet datatypes it names
(`set(datatypes) - set(found_datatypes)`, kept as a list with set meaning). -/
structure FWarn where
  kind : FWarnKind
  unmet : List Str
deriving DecidableEq

/-- Error of `get_filtered_version_index`: the `ValueError` raised by
`source, cancer = source.split("_")` when the split does not yield exactly two
parts. -/
inductive FErr
  | valueError
deriving DecidableEq

/-- Set equality of two lists viewed as Python sets. -/
def setEqB (a b : List Str) : Bool :=
  a.all (fun x => b.contains x) && b.all (fun x => a.contains x)

/-- The loop body of `get_filtered_version_index`'s scan over the version
index (box_download.py lines 325-344): annotation files are included when any
requested datatype is an annotation umbrella member, helper files are included
quietly, and files of a requested datatype are included and recorded. -/
def filterStep (datatypes2 : List Str) (acc : FileManifest × List Str)
    (p : Str × FileEntry) : FileManifest × List Str :=
  let file_type := strLower p.2.datatype
  if file_type = str "annotation" ∧
      datatypes2.any (fun item => annotation_types.contains item) then
    (dictSet acc.1 p.1 p.2,
     acc.2 ++ annotation_types.filter (fun ft => datatypes2.contains ft))
  else if helper_types.contains file_type then
    (dictSet acc.1 p.1 p.2, acc.2)
  else if datatypes2.contains file_type then
    (dictSet acc.1 p.1 p.2, acc.2 ++ [p.2.datatype])
  else
    acc

/-- `get_filtered_version_index` (box_download.py lines 301-362).  The first
component is the call's outcome: the filtered manifest together with the
`DataTypeNotInSourceWarning` (if emitted), or the `ValueError` described at
`FErr`.  The second component is the final state of the caller's `datatypes`
list: `datatypes.extend(helper_types)` mutates it in place, while the later
`datatypes = [d.lower() for d in datatypes]` rebinds a fresh list. -/
def get_filtered_version_index (version_index : FileManifest) (source : Str)
    (datatypes : List Str) (version : Str) :
    Except FErr (FileManifest × Option FWarn) × List Str :=
  let datatypes1 := datatypes ++ helper_types
  let datatypes2 := datatypes1.map strLower
  let scan := version_index.foldl (filterStep datatypes2) ([], [])
  let found_datatypes := scan.2
  let datatypes3 := datatypes2.filter (fun d => !helper_types.contains d)
  let outcome :=
    if setEqB (found_datatypes.map strLower) (datatypes3.map strLower) then
      Except.ok (scan.1, (none : Option FWarn))
    else
      let unmet := datatypes3.filter (fun d => !found_datatypes.contains d)
      if source = str "harmonized" ∨ source = str "mssm" then
        Except.ok (scan.1, some ⟨FWarnKind.shared, unmet⟩)
      else
        match splitOnChar '_' source with
        | [_, _] => Except.ok (scan.1, some ⟨FWarnKind.perCancer, unmet⟩)
        | _ => Except.error FErr.valueError
  (outcome, datatypes1)

/-- The parameters of `download_file` (box_download.py line 118), each with its
required flag: `doi`, `path` and `file_name` have no default. -/
def download_file_params : List (Str × Bool) :=
  [(str "doi", true), (str "path", true), (str "file_name", true),
   (str "file_message", false), (str "file_number", false),
   (str "total_files", false)]

/-- The keyword-argument names of the `download_file(url=index_url,
path=index_path, file_message=...)` call in `update_index` (box_download.py
line 392). -/
def update_index_download_kwargs : List Str :=
  [str "url", str "path", str "file_message"]

/-- Whether a Python keyword-only call binds: every keyword names a parameter
and every required parameter is bound (otherwise the call raises
`TypeError`). -/
def pyKwCallOk (params : List (Str × Bool)) (kwargs : List Str) : Bool :=
  kwargs.all (fun k => params.any (fun p => p.1 == k)) &&
  params.all (fun p => !p.2 || kwargs.contains p.1)

/-- Errors of `update_index`: the `TypeError` raised by its `download_file`
call, and the `NoInternetError` raised when the index file is still absent at
the end. -/
inductive UErr
  | typeError
  | noInternet
deriving DecidableEq

/-- `update_index` (box_download.py lines 364-399), for a dataset whose
`index_urls.tsv` parses to `urls_dict`.  `index_isfile` tells whether
`index.txt` exists before the call and `isfile_after_download` whether it
exists after the download attempt (the attempt is only reached when the call
into `download_file` binds, which `pyKwCallOk` decides). -/
def update_index (urls_dict : List (Str × Str)) (index_isfile : Bool)
    (isfile_after_download : Bool) : Except UErr Bool :=
  if index_isfile then
    .ok true
  else
    let _index_url := dictGet urls_dict (str "index.txt")
    if pyKwCallOk download_file_params update_index_download_kwargs then
      if isfile_after_download then .ok true else .error .noInternet
    else
      .error .typeError

/-- One result of a `download_file` call inside the `box_download` batch loop:
either the wrong-password sentinel string or a downloaded path. -/
inductive DLRes
  | wrongPassword
  | path
deriving DecidableEq

/-- The two password prompts of the batch loop: the first prompt
(`Password for ... dataset:`) and the retry prompt
(`Wrong password. Try again:`). -/
inductive PromptKind
  | firstPrompt
  | retryPrompt
deriving DecidableEq

/-- State of the local variable `password` in `box_download`: never assigned
before its first read (`unbound`), or holding `None` or an entered string. -/
inductive PwState
  | unbound
  | val (v : Option Str)
deriving DecidableEq

/-- Error of the batch loop: the `UnboundLocalError` raised by
`if password is None` when `password` has never been assigned. -/
inductive BErr
  | unboundLocal
deriving DecidableEq

/-- The per-file retry loop of `box_download` (box_download.py lines 64-74).
`attempts` lists the successive results of `download_file` for this file; the
loop runs while the current result is the wrong-password sentinel, reading
`password` (raising on `unbound`), prompting with the first or the retry
wording, and calling `download_file` again.  Returns the password state and
the prompts issued, in order. -/
def passwordRetryLoop (entered : Str) :
    PwState → List DLRes → Except BErr (PwState × List PromptKind)
  | pw, [] => .ok (pw, [])
  | pw, .path :: _ => .ok (pw, [])
  | pw, .wrongPassword :: rest =>
    match pw with
    | .unbound => .error .unboundLocal
    | .val none =>
      match passwordRetryLoop entered (.val (some entered)) rest with
      | .ok (pw', prompts) => .ok (pw', PromptKind.firstPrompt :: prompts)
      | .error e => .error e
    | .val (some _) =>
      match passwordRetryLoop entered (.val (some entered)) rest with
      | .ok (pw', prompts) => .ok (pw', PromptKind.retryPrompt :: prompts)
      | .error e => .error e

/-- The batch loop of `box_download` (box_download.py lines 59-75): files are
processed in order, numbered from 1, the `password` variable persisting across
files.  Returns the prompts issued, tagged with the file number they were
issued for. -/
def boxDownloadFiles (entered : Str) :
    PwState → Nat → List (List DLRes) →
    Except BErr (PwState × List (Nat × PromptKind))
  | pw, _, [] => .ok (pw, [])
  | pw, n, attempts :: restFiles =>
    match passwordRetryLoop entered pw attempts with
    | .error e => .error e
    | .ok (pw', prompts) =>
      match boxDownloadFiles entered pw' (n + 1) restFiles with
      | .error e => .error e
      | .ok (pw'', later) => .ok (pw'', prompts.map (fun p => (n, p)) ++ later)

/-- The batch download driver, entered with `password` never assigned (no
initialisation of `password` exists in `box_download`). -/
def box_download_batch (entered : Str) (files : List (List DLRes)) :
    Except BErr (PwState × List (Nat × PromptKind)) :=
  boxDownloadFiles entered .unbound 1 files

/-- Serialization of one index entry to the line format of spec section 6:
`file_name \t <unused> \t url \t datatype`, with the unused field left
empty. -/
def serializeEntry (file_name : Str) (e : FileEntry) : Str :=
  file_name ++ tabChar :: tabChar :: (e.url ++ tabChar :: e.datatype)

/-- Serialization of one version section: a marker line `#version` followed by
one entry line per file. -/
def serializeVersion (v : Str) (files : FileManifest) : List Str :=
  ('#' :: v) :: files.map (fun p => serializeEntry p.1 p.2)

/-- Serialization of a version index to the line format of spec section 6. -/
def serializeIndex : Index → List Str
  | [] => []
  | (v, files) :: rest => serializeVersion v files ++ serializeIndex rest

/-- A token free of tabs, newlines and carriage returns — the well-formedness
the round-trip claim asks of every version token, file name, url and
datatype. -/
def tabFree (s : Str) : Bool :=
  s.all (fun c => !(c == '\t' || c == '\n' || c == '\r'))

/-- The round-trip claim's stated condition on a token: no tab or newline and
no leading marker character. -/
def claimTokOk (s : Str) : Bool := tabFree s && !(strStartsWith s hashStr)

/-- The round-trip claim's stated well-formedness of a version index. -/
def claimIndexOk (idx : Index) : Bool :=
  idx.all (fun p =>
    claimTokOk p.1 &&
    p.2.all (fun q =>
      claimTokOk q.1 && claimTokOk q.2.url && claimTokOk q.2.datatype) &&
    nodupKeys p.2) &&
  nodupKeys idx

/-- Whether the last character of a token exists and is not whitespace. -/
def lastNotSpace (s : Str) : Bool :=
  match s.getLast? with
  | none => false
  | some c => !isSpaceC c

/-- Whether the first character of a token exists and is not whitespace. -/
def headNotSpace (s : Str) : Bool :=
  match s.head? with
  | none => false
  | some c => !isSpaceC c

/-- Strip-stable version token: no tab or newline, no leading marker, and no
trailing whitespace (so `#token` survives `str.strip()` unchanged). -/
def versionTokOk (v : Str) : Bool :=
  tabFree v && !(strStartsWith v hashStr) && (v.isEmpty || lastNotSpace v)

/-- Strip-stable index entry: tab- and newline-free fields, the file name
non-empty, not starting with whitespace or the marker character, and the
datatype non-empty and not ending with whitespace (so the entry line survives
`str.strip()` unchanged). -/
def entryOk (p : Str × FileEntry) : Bool :=
  tabFree p.1 && headNotSpace p.1 && !(strStartsWith p.1 hashStr) &&
  tabFree p.2.url && tabFree p.2.datatype && lastNotSpace p.2.datatype

/-- Well-formedness of a version index under which serialization followed by
re-parsing is the identity: strip-stable tokens and duplicate-free keys. -/
def wfIndex (idx : Index) : Bool :=
  idx.all (fun p => versionTokOk p.1 && p.2.all entryOk && nodupKeys p.2) &&
  nodupKeys idx

/-!
General lemmas about the string and dict model, and the two induction lemmas
behind the index round-trip.
-/

theorem splitOnChar_ne_nil (sep : Char) (s : Str) : splitOnChar sep s ≠ [] := by
  induction s with
  | nil => simp [splitOnChar]
  | cons c rest ih =>
    cases h : splitOnChar sep rest with
    | nil => exact absurd h ih
    | cons x xs =>
      simp only [splitOnChar, h]
      split <;> simp


theorem splitOnChar_no_sep (sep : Char) (a : Str) (h : ∀ c ∈ a, c ≠ sep) :
    splitOnChar sep a = [a] := by
  induction a with
  | nil => rfl
  | cons c rest ih =>
    have hc : (c == sep) = false := by
      simp [h c (by simp)]
    have ih' := ih (fun x hx => h x (by simp [hx]))
    simp only [splitOnChar, ih', hc]
    simp


theorem splitOnChar_append (sep : Char) (a b : Str) (h : ∀ c ∈ a, c ≠ sep) :
    splitOnChar sep (a ++ sep :: b) = a :: splitOnChar sep b := by
  induction a with
  | nil =>
    simp only [List.nil_append, splitOnChar]
    cases hb : splitOnChar sep b with
    | nil => exact absurd hb (splitOnChar_ne_nil sep b)
    | cons x xs => simp
  | cons c rest ih =>
    have hc : (c == sep) = false := by
      simp [h c (by simp)]
    have ih' := ih (fun x hx => h x (by simp [hx]))
    simp only [List.cons_append, splitOnChar, hc, List.append_eq]
    rw [ih']
    rfl


theorem dropWhile_eq_self_of_head (p : Char → Bool) (s : Str)
    (h : ∀ c, s.head? = some c → p c = false) : s.dropWhile p = s := by
  cases s with
  | nil => rfl
  | cons c rest =>
    have := h c rfl
    simp [List.dropWhile, this]


theorem pyStrip_eq_self (s : Str)
    (h1 : ∀ c, s.head? = some c → isSpaceC c = false)
    (h2 : ∀ c, s.getLast? = some c → isSpaceC c = false) : pyStrip s = s := by
  unfold pyStrip
  rw [dropWhile_eq_self_of_head isSpaceC s h1]
  rw [dropWhile_eq_self_of_head isSpaceC s.reverse
    (fun c hc => h2 c (by rwa [List.head?_reverse] at hc))]
  exact List.reverse_reverse s


theorem head?_append_left (a b : Str) (c : Char) (h : a.head? = some c) :
    (a ++ b).head? = some c := by
  cases a with
  | nil => simp at h
  | cons x xs => simpa using h


theorem getLast?_append_right (a b : Str) (c : Char) (h : b.getLast? = some c) :
    (a ++ b).getLast? = some c := by
  have hb : b ≠ [] := by
    intro he
    rw [he] at h
    simp at h
  rw [List.getLast?_append_of_ne_nil a hb]
  exact h


theorem dictSet_append {α : Type} (m : List (Str × α)) (k : Str) (v : α)
    (h : ∀ p ∈ m, p.1 ≠ k) : dictSet m k v = m ++ [(k, v)] := by
  induction m with
  | nil => rfl
  | cons q rest ih =>
    obtain ⟨qk, qv⟩ := q
    have hq : qk ≠ k := h (qk, qv) (by simp)
    simp only [dictSet]
    rw [if_neg hq]
    rw [ih (fun p hp => h p (by simp [hp]))]
    simp


theorem dictGet_append_last {α : Type} (m : List (Str × α)) (k : Str) (v : α)
    (h : ∀ p ∈ m, p.1 ≠ k) : dictGet (m ++ [(k, v)]) k = some v := by
  induction m with
  | nil => simp [dictGet]
  | cons q rest ih =>
    obtain ⟨qk, qv⟩ := q
    have hq : qk ≠ k := h (qk, qv) (by simp)
    simp only [List.cons_append, dictGet, List.append_eq]
    rw [if_neg hq]
    exact ih (fun p hp => h p (by simp [hp]))


theorem dictSet_append_last {α : Type} (m : List (Str × α)) (k : Str) (v w : α)
    (h : ∀ p ∈ m, p.1 ≠ k) : dictSet (m ++ [(k, v)]) k w = m ++ [(k, w)] := by
  induction m with
  | nil => simp [dictSet]
  | cons q rest ih =>
    obtain ⟨qk, qv⟩ := q
    have hq : qk ≠ k := h (qk, qv) (by simp)
    simp only [List.cons_append, dictSet, List.append_eq]
    rw [if_neg hq]
    rw [ih (fun p hp => h p (by simp [hp]))]


theorem nodupKeys_cons {α : Type} (q : Str × α) (rest : List (Str × α))
    (h : nodupKeys (q :: rest) = true) :
    (∀ p ∈ rest, p.1 ≠ q.1) ∧ nodupKeys rest = true := by
  simp only [nodupKeys, Bool.and_eq_true, Bool.not_eq_true', List.any_eq_false] at h
  refine ⟨fun p hp => ?_, h.2⟩
  have := h.1 p hp
  simpa using this


theorem tabFree_no_tab (s : Str) (h : tabFree s = true) : ∀ c ∈ s, c ≠ tabChar := by
  intro c hc
  have hx := List.all_eq_true.mp h c hc
  simp at hx
  simpa [tabChar] using hx.1.1


theorem headNotSpace_elim (s : Str) (h : headNotSpace s = true) :
    ∃ c s', s = c :: s' ∧ isSpaceC c = false := by
  cases s with
  | nil => simp [headNotSpace] at h
  | cons c s' => exact ⟨c, s', rfl, by simpa [headNotSpace] using h⟩


theorem lastNotSpace_elim (s : Str) (h : lastNotSpace s = true) :
    ∃ c, s.getLast? = some c ∧ isSpaceC c = false := by
  unfold lastNotSpace at h
  cases hg : s.getLast? with
  | none => rw [hg] at h; simp at h
  | some c => rw [hg] at h; exact ⟨c, rfl, by simpa using h⟩


theorem entry_line_strip (n : Str) (e : FileEntry) (he : entryOk (n, e) = true) :
    pyStrip (serializeEntry n e) = serializeEntry n e := by
  simp only [entryOk, Bool.and_eq_true] at he
  obtain ⟨⟨⟨⟨⟨_, hhead⟩, _⟩, _⟩, _⟩, hlast⟩ := he
  obtain ⟨c0, n', hn, hc0⟩ := headNotSpace_elim n hhead
  obtain ⟨cL, hcL, hcLs⟩ := lastNotSpace_elim e.datatype hlast
  apply pyStrip_eq_self
  · intro c hc
    have hh : (serializeEntry n e).head? = some c0 := by
      unfold serializeEntry
      exact head?_append_left n _ c0 (by rw [hn]; rfl)
    rw [hh] at hc
    cases hc
    exact hc0
  · intro c hc
    have h1 : (tabChar :: e.datatype).getLast? = some cL :=
      getLast?_append_right [tabChar] e.datatype cL hcL
    have h2 : (e.url ++ tabChar :: e.datatype).getLast? = some cL :=
      getLast?_append_right e.url _ cL h1
    have h3 : (tabChar :: tabChar :: (e.url ++ tabChar :: e.datatype)).getLast? = some cL :=
      getLast?_append_right [tabChar, tabChar] _ cL h2
    have h4 : (serializeEntry n e).getLast? = some cL :=
      getLast?_append_right n _ cL h3
    rw [h4] at hc
    cases hc
    exact hcLs


theorem entry_line_not_marker (n : Str) (e : FileEntry) (he : entryOk (n, e) = true) :
    strStartsWith (serializeEntry n e) hashStr = false := by
  simp only [entryOk, Bool.and_eq_true] at he
  obtain ⟨⟨⟨⟨⟨_, hhead⟩, hmark⟩, _⟩, _⟩, _⟩ := he
  obtain ⟨c0, n', hn, _⟩ := headNotSpace_elim n hhead
  subst hn
  have hc0 : (c0 == '#') = false := by
    simp only [strStartsWith, hashStr, Bool.not_eq_true'] at hmark
    simpa using hmark
  simp [serializeEntry, strStartsWith, hashStr, hc0]


theorem entry_line_split (n : Str) (e : FileEntry) (he : entryOk (n, e) = true) :
    splitOnChar tabChar (serializeEntry n e) = [n, [], e.url, e.datatype] := by
  simp only [entryOk, Bool.and_eq_true] at he
  obtain ⟨⟨⟨⟨⟨htn, _⟩, _⟩, htu⟩, htd⟩, _⟩ := he
  unfold serializeEntry
  rw [splitOnChar_append tabChar n _ (tabFree_no_tab n htn)]
  rw [show splitOnChar tabChar (tabChar :: (e.url ++ tabChar :: e.datatype))
        = [] :: splitOnChar tabChar (e.url ++ tabChar :: e.datatype) from
      splitOnChar_append tabChar [] _ (by simp)]
  rw [splitOnChar_append tabChar e.url _ (tabFree_no_tab e.url htu)]
  rw [splitOnChar_no_sep tabChar e.datatype (tabFree_no_tab e.datatype htd)]


theorem marker_line_strip (v : Str) (hv : versionTokOk v = true) :
    pyStrip ('#' :: v) = '#' :: v := by
  simp only [versionTokOk, Bool.and_eq_true] at hv
  apply pyStrip_eq_self
  · intro c hc
    simp at hc
    subst hc
    decide
  · intro c hc
    by_cases hv0 : v = []
    · subst hv0
      simp at hc
      subst hc
      decide
    · have hlast : lastNotSpace v = true := by
        rcases hv with ⟨_, hor⟩
        have hor' : v = [] ∨ lastNotSpace v = true := by simpa using hor
        rcases hor' with hemp | hl
        · exact absurd hemp hv0
        · exact hl
      obtain ⟨cL, hcL, hcLs⟩ := lastNotSpace_elim v hlast
      have : ('#' :: v).getLast? = some cL := by
        rw [show ('#' :: v) = ['#'] ++ v from rfl]
        exact getLast?_append_right ['#'] v cL hcL
      rw [this] at hc
      cases hc
      exact hcLs


theorem marker_line_starts (v : Str) : strStartsWith ('#' :: v) hashStr = true := by
  simp [strStartsWith, hashStr]


theorem parse_entries (es : FileManifest) :
    ∀ (done : Index) (v : Str) (fs : FileManifest) (rest : List Str),
    (∀ p ∈ done, p.1 ≠ v) →
    es.all entryOk = true →
    nodupKeys es = true →
    (∀ p ∈ es, ∀ q ∈ fs, p.1 ≠ q.1) →
    parseIndexLines (es.map (fun p => serializeEntry p.1 p.2) ++ rest)
        (done ++ [(v, fs)]) (some v)
      = parseIndexLines rest (done ++ [(v, fs ++ es)]) (some v) := by
  induction es with
  | nil =>
    intro done v fs rest _ _ _ _
    simp
  | cons p es' ih =>
    intro done v fs rest hdone hwf hnodup hdisj
    obtain ⟨n, e⟩ := p
    have hp : entryOk (n, e) = true := by
      simp only [List.all_cons, Bool.and_eq_true] at hwf
      exact hwf.1
    have hwf' : es'.all entryOk = true := by
      simp only [List.all_cons, Bool.and_eq_true] at hwf
      exact hwf.2
    obtain ⟨hnodup1, hnodup'⟩ := nodupKeys_cons (n, e) es' hnodup
    have hfs_n : ∀ q ∈ fs, q.1 ≠ n := by
      intro q hq
      exact fun hqe => (hdisj (n, e) (by simp) q hq) hqe.symm
    simp only [List.map_cons, List.cons_append, parseIndexLines]
    rw [entry_line_strip n e hp, entry_line_not_marker n e hp,
      entry_line_split n e hp]
    rw [dictGet_append_last done v fs hdone]
    show parseIndexLines (List.map (fun p => serializeEntry p.1 p.2) es' ++ rest)
        (dictSet (done ++ [(v, fs)]) v (dictSet fs n ⟨e.url, e.datatype⟩)) (some v)
      = parseIndexLines rest (done ++ [(v, fs ++ (n, e) :: es')]) (some v)
    rw [show (⟨e.url, e.datatype⟩ : FileEntry) = e from rfl]
    rw [dictSet_append fs n e hfs_n]
    rw [dictSet_append_last done v fs (fs ++ [(n, e)]) hdone]
    rw [ih done v (fs ++ [(n, e)]) rest hdone hwf' hnodup'
      (fun p hp' q hq => by
        rcases List.mem_append.mp hq with hq1 | hq2
        · exact hdisj p (by simp [hp']) q hq1
        · have hqe : q = (n, e) := by simpa using hq2
          subst hqe
          exact hnodup1 p hp')]
    rw [List.append_assoc fs [(n, e)] es']
    rfl


theorem parse_versions (vs : Index) :
    ∀ (done : Index) (ver : Option Str),
    wfIndex vs = true →
    (∀ p ∈ done, ∀ q ∈ vs, p.1 ≠ q.1) →
    parseIndexLines (serializeIndex vs) done ver = Except.ok (done ++ vs) := by
  induction vs with
  | nil =>
    intro done ver _ _
    simp [serializeIndex, parseIndexLines]
  | cons p vs' ih =>
    intro done ver hwf hdisj
    obtain ⟨v, files⟩ := p
    simp only [wfIndex, Bool.and_eq_true, List.all_cons] at hwf
    obtain ⟨⟨⟨⟨hv, hfa⟩, hfn⟩, hall'⟩, hnodup⟩ := hwf
    obtain ⟨hnd1, hnd'⟩ := nodupKeys_cons (v, files) vs' hnodup
    have hwf' : wfIndex vs' = true := by
      simp only [wfIndex, Bool.and_eq_true]
      exact ⟨hall', hnd'⟩
    have hdone_v : ∀ p ∈ done, p.1 ≠ v := fun p hp => hdisj p hp (v, files) (by simp)
    have hdisj' : ∀ p ∈ done ++ [(v, files)], ∀ q ∈ vs', p.1 ≠ q.1 := by
      intro p hp q hq
      rcases List.mem_append.mp hp with h1 | h2
      · exact hdisj p h1 q (by simp [hq])
      · have hpe : p = (v, files) := by simpa using h2
        subst hpe
        exact fun he => (hnd1 q hq) he.symm
    simp only [serializeIndex, serializeVersion, List.cons_append, parseIndexLines]
    rw [marker_line_strip v hv, marker_line_starts v]
    show parseIndexLines (List.map (fun p => serializeEntry p.1 p.2) files ++ serializeIndex vs')
        (dictSet done v []) (some v) = Except.ok (done ++ (v, files) :: vs')
    rw [dictSet_append done v [] hdone_v]
    rw [parse_entries files done v [] (serializeIndex vs') hdone_v hfa hfn (by simp)]
    rw [show (([] : FileManifest) ++ files) = files from rfl]
    rw [ih (done ++ [(v, files)]) (some v) hwf' hdisj']
    rw [List.append_assoc]
    rfl


/-!
The claims.
-/

/-- Claim C1: for every dataset with a non-empty version index, resolving the
version token `latest` (case-insensitive, and not itself an index key) returns
the index maximum with no warning when the latest installed version equals it
or nothing is installed; otherwise the `download` context warns and returns the
index maximum while the `init` context raises `AmbiguousLatestError`. -/
theorem c1_latest_resolution (index : Index) (latest_installed : Option Str) (version index_latest : Str)
    (hmax : pyMax releaseOf (dictKeys index) = some index_latest)
    (hlat : strLower version = str "latest")
    (hnotin : version ∉ dictKeys index) :
    ((latest_installed = some index_latest ∨ latest_installed = none) →
      validate_version index latest_installed version (str "download") none
        = Except.ok (index_latest, []) ∧
      validate_version index latest_installed version (str "init") none
        = Except.ok (index_latest, [])) ∧
    (latest_installed ≠ some index_latest → latest_installed ≠ none →
      validate_version index latest_installed version (str "download") none
        = Except.ok (index_latest, [VWarn.downloadingNewLatest]) ∧
      validate_version index latest_installed version (str "init") none
        = Except.error VErr.ambiguousLatest) := by
  have hni : str "init" ≠ str "download" := by decide
  constructor
  · intro h
    constructor <;> simp [validate_version, hmax, hnotin, hlat, h]
  · intro h1 h2
    constructor
    · simp [validate_version, hmax, hnotin, hlat, h1, h2]
    · simp [validate_version, hmax, hnotin, hlat, h1, h2, hni]


/-- Witness for C1 at a concrete index `{1.0, 2.0}` with `1.0` installed. -/
theorem c1_latest_resolution_witness :
    validate_version [(str "1.0", []), (str "2.0", [])] (some (str "1.0"))
        (str "latest") (str "download") none
      = Except.ok (str "2.0", [VWarn.downloadingNewLatest]) ∧
    validate_version [(str "1.0", []), (str "2.0", [])] (some (str "1.0"))
        (str "latest") (str "init") none
      = Except.error VErr.ambiguousLatest :=
  (c1_latest_resolution [(str "1.0", []), (str "2.0", [])] (some (str "1.0")) (str "latest")
      (str "2.0") (by decide) (by decide) (by decide)).2
    (by decide) (by decide)


/-- Claim C2 (amended): with the index file absent, `get_index` raises
`MissingFileError` exactly when some directory entry — file or directory alike,
since `glob.glob` does not check the entry type — matches `{dataset}_v*`, and
`DatasetNotInstalledError` otherwise. -/
theorem c2_missing_index_error_choice (dataset : Str) (entries : List (Str × Bool)) :
    ((entries.map Prod.fst).any (fun n => strStartsWith n (dataset ++ str "_v")) = true →
      get_index dataset entries none = Except.error GErr.missingFile) ∧
    ((entries.map Prod.fst).any (fun n => strStartsWith n (dataset ++ str "_v")) = false →
      get_index dataset entries none = Except.error GErr.datasetNotInstalled) := by
  constructor
  · intro h
    have hpos : (globVersionDirs dataset entries).length > 0 := by
      rw [List.any_eq_true] at h
      obtain ⟨n, hn, hs⟩ := h
      have hmem : n ∈ globVersionDirs dataset entries :=
        List.mem_filter.mpr ⟨hn, hs⟩
      exact List.length_pos.mpr (List.ne_nil_of_mem hmem)
    simp [get_index, hpos]
  · intro h
    have hnil : globVersionDirs dataset entries = [] := by
      rw [List.any_eq_false] at h
      apply List.filter_eq_nil_iff.mpr
      intro n hn
      simpa using h n hn
    simp [get_index, hnil]


/-- Witness for C2 at concrete directory listings. -/
theorem c2_missing_index_error_choice_witness :
    get_index (str "foo") [(str "foo_v1.0", true)] none = Except.error GErr.missingFile ∧
    get_index (str "bar") [(str "stuff", true)] none = Except.error GErr.datasetNotInstalled :=
  ⟨(c2_missing_index_error_choice (str "foo") [(str "foo_v1.0", true)]).1 (by decide),
   (c2_missing_index_error_choice (str "bar") [(str "stuff", true)]).2 (by decide)⟩


/-- Counterexample to C2 as stated: a plain file named `foo_v1.0` (every entry
has its directory flag false) makes `get_index` raise `MissingFileError`, while
the claim, reading `{dataset}_v*` matches as directories only, predicts
`DatasetNotInstalledError`. -/
theorem c2_missing_index_counterexample :
    get_index (str "foo") [(str "foo_v1.0", false)] none = Except.error GErr.missingFile ∧
    List.filter Prod.snd [(str "foo_v1.0", false)] = [] := by
  constructor
  · rfl
  · rfl


/-- Claim C3 (amended): an entry line of the index is silently skipped when it
has fewer than two tab-separated fields; with exactly two or three fields the
parse fails with an `IndexError` (the claim wrongly states such lines are
recorded without failing); with four or more fields the entry is recorded with
the name from position 0, the url from position 2 and the datatype from
position 3. -/
theorem c3_entry_line_cases (rawLine : Str) (rest : List Str) (idx : Index) (v : Str) (files : FileManifest)
    (hv : dictGet idx v = some files)
    (hm : strStartsWith (pyStrip rawLine) hashStr = false) :
    ((splitOnChar tabChar (pyStrip rawLine)).length ≤ 1 →
      parseIndexLines (rawLine :: rest) idx (some v) = parseIndexLines rest idx (some v)) ∧
    ((splitOnChar tabChar (pyStrip rawLine)).length = 2 ∨
        (splitOnChar tabChar (pyStrip rawLine)).length = 3 →
      parseIndexLines (rawLine :: rest) idx (some v) = Except.error GErr.indexError) ∧
    (4 ≤ (splitOnChar tabChar (pyStrip rawLine)).length →
      parseIndexLines (rawLine :: rest) idx (some v) =
        parseIndexLines rest
          (dictSet idx v
            (dictSet files ((splitOnChar tabChar (pyStrip rawLine)).headD [])
              ⟨((splitOnChar tabChar (pyStrip rawLine))[2]?).getD [],
               ((splitOnChar tabChar (pyStrip rawLine))[3]?).getD []⟩))
          (some v)) := by
  refine ⟨?_, ?_, ?_⟩
  · intro h
    have hlen : ¬ ((splitOnChar tabChar (pyStrip rawLine)).length > 1) := by omega
    simp [parseIndexLines, hm, hlen]
  · intro h
    have h3 : ((splitOnChar tabChar (pyStrip rawLine))[3]?) = none := by
      apply List.getElem?_eq_none
      omega
    rcases h with h2 | h2
    · have hx : ((splitOnChar tabChar (pyStrip rawLine))[2]?) = none := by
        apply List.getElem?_eq_none
        omega
      simp [parseIndexLines, hm, hv, h2, hx, h3]
    · have hx : ((splitOnChar tabChar (pyStrip rawLine))[2]?) =
          some ((splitOnChar tabChar (pyStrip rawLine)).get ⟨2, by omega⟩) := by
        rw [List.getElem?_eq_getElem (by omega)]
        simp
      simp [parseIndexLines, hm, hv, h2, hx, h3]
  · intro h
    have hx2 : ((splitOnChar tabChar (pyStrip rawLine))[2]?) =
        some ((splitOnChar tabChar (pyStrip rawLine)).get ⟨2, by omega⟩) := by
      rw [List.getElem?_eq_getElem (by omega)]
      simp
    have hx3 : ((splitOnChar tabChar (pyStrip rawLine))[3]?) =
        some ((splitOnChar tabChar (pyStrip rawLine)).get ⟨3, by omega⟩) := by
      rw [List.getElem?_eq_getElem (by omega)]
      simp
    have hlen : (splitOnChar tabChar (pyStrip rawLine)).length > 1 := by omega
    simp [parseIndexLines, hm, hv, hlen, hx2, hx3]


/-- Witness for C3 on a concrete two-field line. -/
theorem c3_entry_line_cases_witness :
    parseIndexLines [str "a\tb"] [(str "1.0", [])] (some (str "1.0"))
      = Except.error GErr.indexError :=
  (c3_entry_line_cases (str "a\tb") [] [(str "1.0", [])] (str "1.0") [] (by decide)
      (by decide)).2.1 (Or.inl (by decide))


/-- Counterexample to C3 as stated: parsing an index whose section holds the
two-field line `a\tb` fails with an `IndexError` (`line_list[2]`), where the
claim says the line is recorded or skipped but parsing never fails. -/
theorem c3_short_line_counterexample :
    get_index (str "foo") [] (some [str "#1.0", str "a\tb"]) = Except.error GErr.indexError := by
  rfl


/-- Claim C4 evaluated at the failing input: with a directory named exactly
`bcm_brca_v1.0` inside `data/data_bcm_brca`, `get_latest_installed` returns
none instead of detecting version `1.0`, because it derives the dataset name
`bcm` from `data_bcm_brca.split('_')[1]` and searches for the prefix `bcm_v`. -/
theorem c4_bcm_brca_undetected :
    get_latest_installed (str "data/data_bcm_brca") [str "bcm_brca_v1.0"] = none := by
  rfl


/-- Claim C5 evaluated on the absent-index path: `update_index` always raises
`TypeError` there, because its `download_file(url=..., path=..., 
file_message=...)` call names a `url` keyword that `download_file` does not
accept; the download, the `True` return and the `NoInternetError` of the claim
are unreachable. -/
theorem c5_update_index_type_error (urls_dict : List (Str × Str)) (after : Bool) :
    update_index urls_dict false after = Except.error UErr.typeError ∧
    pyKwCallOk download_file_params update_index_download_kwargs = false := by
  have h : pyKwCallOk download_file_params update_index_download_kwargs = false := rfl
  constructor
  · simp [update_index, h]
  · exact h


/-- Claim C6: on a manifest of one `proteomics` file and one `mapping` file,
filtering with `datatypes=["proteomics"]` returns both files and emits no
warning, and filtering with `datatypes=["cnv"]` returns only the mapping file
and emits a `DataTypeNotInSourceWarning` naming exactly `cnv`, for shared
sources and for `source_cancer`-shaped sources alike. -/
theorem c6_datatype_filter_scenario (f1 f2 u1 u2 source version : Str) (hne : f1 ≠ f2) :
    ((get_filtered_version_index
        [(f1, ⟨u1, str "proteomics"⟩), (f2, ⟨u2, str "mapping"⟩)]
        source [str "proteomics"] version).1
      = Except.ok ([(f1, ⟨u1, str "proteomics"⟩), (f2, ⟨u2, str "mapping"⟩)], none)) ∧
    (source = str "harmonized" ∨ source = str "mssm" →
      (get_filtered_version_index
          [(f1, ⟨u1, str "proteomics"⟩), (f2, ⟨u2, str "mapping"⟩)]
          source [str "cnv"] version).1
        = Except.ok ([(f2, ⟨u2, str "mapping"⟩)],
            some ⟨FWarnKind.shared, [str "cnv"]⟩)) ∧
    ((splitOnChar '_' source).length = 2 →
      (get_filtered_version_index
          [(f1, ⟨u1, str "proteomics"⟩), (f2, ⟨u2, str "mapping"⟩)]
          source [str "cnv"] version).1
        = Except.ok ([(f2, ⟨u2, str "mapping"⟩)],
            some ⟨FWarnKind.perCancer, [str "cnv"]⟩)) := by
  have hdtp : List.map strLower ([str "proteomics"] ++ helper_types)
      = [str "proteomics", str "mapping", str "definitions"] := by decide
  have hdtc : List.map strLower ([str "cnv"] ++ helper_types)
      = [str "cnv", str "mapping", str "definitions"] := by decide
  have hstep1 : ∀ acc : FileManifest × List Str,
      filterStep [str "proteomics", str "mapping", str "definitions"] acc
          (f1, ⟨u1, str "proteomics"⟩)
        = (dictSet acc.1 f1 ⟨u1, str "proteomics"⟩, acc.2 ++ [str "proteomics"]) := by
    intro acc
    simp only [filterStep]
    rw [if_neg (by decide), if_neg (by decide), if_pos (by decide)]
  have hstep2 : ∀ acc : FileManifest × List Str,
      filterStep [str "proteomics", str "mapping", str "definitions"] acc
          (f2, ⟨u2, str "mapping"⟩)
        = (dictSet acc.1 f2 ⟨u2, str "mapping"⟩, acc.2) := by
    intro acc
    simp only [filterStep]
    rw [if_neg (by decide), if_pos (by decide)]
  have hstep3 : ∀ acc : FileManifest × List Str,
      filterStep [str "cnv", str "mapping", str "definitions"] acc
          (f1, ⟨u1, str "proteomics"⟩) = acc := by
    intro acc
    simp only [filterStep]
    rw [if_neg (by decide), if_neg (by decide), if_neg (by decide)]
  have hstep4 : ∀ acc : FileManifest × List Str,
      filterStep [str "cnv", str "mapping", str "definitions"] acc
          (f2, ⟨u2, str "mapping"⟩)
        = (dictSet acc.1 f2 ⟨u2, str "mapping"⟩, acc.2) := by
    intro acc
    simp only [filterStep]
    rw [if_neg (by decide), if_pos (by decide)]
  have hfold1 : List.foldl (filterStep [str "proteomics", str "mapping", str "definitions"])
      ([], []) [(f1, ⟨u1, str "proteomics"⟩), (f2, ⟨u2, str "mapping"⟩)]
      = ([(f1, ⟨u1, str "proteomics"⟩), (f2, ⟨u2, str "mapping"⟩)], [str "proteomics"]) := by
    simp only [List.foldl, hstep1, hstep2]
    simp [dictSet, hne]
  have hfold2 : List.foldl (filterStep [str "cnv", str "mapping", str "definitions"])
      ([], []) [(f1, ⟨u1, str "proteomics"⟩), (f2, ⟨u2, str "mapping"⟩)]
      = ([(f2, ⟨u2, str "mapping"⟩)], []) := by
    simp only [List.foldl, hstep3, hstep4]
    simp [dictSet]
  refine ⟨?_, ?_, ?_⟩
  · simp only [get_filtered_version_index, hdtp, hfold1]
    rw [if_pos (by decide)]
  · intro h
    simp only [get_filtered_version_index, hdtc, hfold2]
    rw [if_neg (by decide), if_pos h]
    rfl
  · intro h
    have hh : ¬ (source = str "harmonized" ∨ source = str "mssm") := by
      rintro (he | he) <;> (subst he; exact absurd h (by decide))
    simp only [get_filtered_version_index, hdtc, hfold2]
    rw [if_neg (by decide), if_neg hh]
    match hs : splitOnChar '_' source with
    | [a, b] =>
      simp only [hs]
      rfl
    | [] => rw [hs] at h; simp at h
    | [a] => rw [hs] at h; simp at h
    | a :: b :: c :: l => rw [hs] at h; simp at h


/-- Witness for C6 at concrete file names and the source `bcm_brca`. -/
theorem c6_datatype_filter_scenario_witness :
    ((get_filtered_version_index
        [(str "a", ⟨str "u1", str "proteomics"⟩), (str "b", ⟨str "u2", str "mapping"⟩)]
        (str "bcm_brca") [str "proteomics"] (str "1.0")).1
      = Except.ok ([(str "a", ⟨str "u1", str "proteomics"⟩),
          (str "b", ⟨str "u2", str "mapping"⟩)], none)) ∧
    ((get_filtered_version_index
        [(str "a", ⟨str "u1", str "proteomics"⟩), (str "b", ⟨str "u2", str "mapping"⟩)]
        (str "bcm_brca") [str "cnv"] (str "1.0")).1
      = Except.ok ([(str "b", ⟨str "u2", str "mapping"⟩)],
          some ⟨FWarnKind.perCancer, [str "cnv"]⟩)) :=
  ⟨(c6_datatype_filter_scenario (str "a") (str "b") (str "u1") (str "u2")
      (str "bcm_brca") (str "1.0") (by decide)).1,
   (c6_datatype_filter_scenario (str "a") (str "b") (str "u1") (str "u2")
      (str "bcm_brca") (str "1.0") (by decide)).2.2 (by decide)⟩

/-- Claim C7 evaluated at the failing input: for the source name `broad`
(neither shared nor splitting into `source_cancer` on one underscore) with an
unmet datatype request, `get_filtered_version_index` aborts with the
`ValueError` of `source, cancer = source.split("_")` instead of warning and
returning the filtered manifest. -/
theorem c7_filter_value_error :
    (get_filtered_version_index [] (str "broad") [str "cnv"] (str "1.0")).1
      = Except.error FErr.valueError := by
  rfl


/-- Claim C8 (amended): serializing a version index to the section 6 line
format and re-parsing it with the version index parser is the identity,
provided the tokens are additionally strip-stable: version tokens do not end
in whitespace, file names are non-empty and do not start with whitespace, and
datatypes are non-empty and do not end in whitespace. -/
theorem c8_roundtrip_amended (dataset : Str) (entries : List (Str × Bool)) (idx : Index)
    (h : wfIndex idx = true) :
    get_index dataset entries (some (serializeIndex idx)) = Except.ok idx := by
  have h2 := parse_versions idx [] none h (fun p hp => absurd hp (List.not_mem_nil p))
  rw [List.nil_append] at h2
  exact h2


/-- Witness for C8 on a concrete two-version index. -/
theorem c8_roundtrip_amended_witness :
    get_index (str "foo") []
        (some (serializeIndex
          [(str "1.0", [(str "a.tsv", ⟨str "u", str "proteomics"⟩)]),
           (str "2.0", [(str "a.tsv", ⟨str "u2", str "proteomics"⟩)])]))
      = Except.ok
          [(str "1.0", [(str "a.tsv", ⟨str "u", str "proteomics"⟩)]),
           (str "2.0", [(str "a.tsv", ⟨str "u2", str "proteomics"⟩)])] :=
  c8_roundtrip_amended (str "foo") []
    [(str "1.0", [(str "a.tsv", ⟨str "u", str "proteomics"⟩)]),
     (str "2.0", [(str "a.tsv", ⟨str "u2", str "proteomics"⟩)])]
    (by decide)


/-- Counterexample to C8 as stated: the version token `1.0 ` (trailing space)
contains no tab, newline or leading marker character, yet `str.strip()` in the
parser truncates it to `1.0`, so the round-trip is not the identity. -/
theorem c8_roundtrip_counterexample :
    claimIndexOk [(str "1.0" ++ [' '], [])] = true ∧
    get_index (str "d") [] (some (serializeIndex [(str "1.0" ++ [' '], [])]))
      = Except.ok [(str "1.0", [])] ∧
    (str "1.0" ++ [' '], ([] : FileManifest)) ≠ (str "1.0", ([] : FileManifest)) := by
  refine ⟨by decide, by rfl, by decide⟩


/-- Claim C9 evaluated at the failing input: in a batch of three files whose
second file signals the wrong-password condition, `box_download` raises
`UnboundLocalError` at `if password is None` — `password` is never initialised
— instead of prompting twice and completing the batch. -/
theorem c9_password_loop_unbound (entered : Str) :
    box_download_batch entered
      [[DLRes.path], [DLRes.wrongPassword, DLRes.wrongPassword, DLRes.path], [DLRes.path]]
      = Except.error BErr.unboundLocal := by
  rfl


/-- Claim C10: `get_filtered_version_index` mutates its `datatypes` list
argument in place — `datatypes.extend(helper_types)` leaves the caller with
its original list plus `mapping` and `definitions` appended (two elements
longer), so the call is not free of side effects on its inputs. -/
theorem c10_datatypes_extend_in_place (version_index : FileManifest) (source : Str) (datatypes : List Str) (version : Str) :
    (get_filtered_version_index version_index source datatypes version).2
      = datatypes ++ [str "mapping", str "definitions"] ∧
    ((get_filtered_version_index version_index source datatypes version).2).length
      = datatypes.length + 2 := by
  constructor
  · rfl
  · simp [get_filtered_version_index, helper_types]

